import Mathlib

/-!
Verification of the Arcadian ad-layout script
(`arcadian_imgfit_stars.js`).

The file embeds the layout script's data model and operations as Lean
definitions and proves the specification's testable properties about
them: the rotation carousel's index invariant and time cap, the
uniform-font-size pass, the font loader's broadcast behaviour, the
declared schema occurrence constraints, the preloader bootstrap, the
sale-price substitution in the controller, and the single-interval
timer discipline.
-/

set_option autoImplicit false

namespace Arcadian

/-- Max allowed duration (ms) for which animation can occur per AdWords
policy (`AUTO_ROTATE_MAX_DURATION` in the script). -/
def AUTO_ROTATE_MAX_DURATION : Nat := 30000

/-- Duration (ms) to hold on each highlighted item before moving to the
next (`ITEM_HOLD_DUR` in the script). -/
def ITEM_HOLD_DUR : Nat := 3500

/-! ### Carousel state (`LayoutController` scope fields)

The controller scope owns `currentItemIndex` and `itemsLimit`, together
with the module-level `autoCycleStartTime`.  `rotationActive` records
whether the repeating `autoCycleInterval` timer is currently registered.
All times are in milliseconds, as returned by `new Date().getTime()`. -/

structure Scope where
  currentItemIndex : Nat
  itemsLimit : Nat
  autoCycleStartTime : Nat
  rotationActive : Bool
deriving Repr, DecidableEq

/-- Controller-initialization values: `$scope.itemsLimit = 1;
$scope.currentItemIndex = 0;` and no interval registered yet. -/
def initScope : Scope :=
  { currentItemIndex := 0
    itemsLimit := 1
    autoCycleStartTime := 0
    rotationActive := false }

/-- `$scope.nextItem`: if the elapsed time exceeds the policy cap the
interval is cleared and the index reset to 0; otherwise the index
advances, wrapping to 0 when `currentItemIndex + 1` reaches
`itemsLimit`. -/
def nextItem (now : Nat) (s : Scope) : Scope :=
  if now - s.autoCycleStartTime > AUTO_ROTATE_MAX_DURATION then
    { s with rotationActive := false, currentItemIndex := 0 }
  else if s.currentItemIndex + 1 < s.itemsLimit then
    { s with currentItemIndex := s.currentItemIndex + 1 }
  else
    { s with currentItemIndex := 0 }

/-- `$scope.startCarousel`: records the start time and registers the
rotation interval (via `$scope.startInterval`). -/
def startCarousel (now : Nat) (s : Scope) : Scope :=
  { s with autoCycleStartTime := now, rotationActive := true }

/-- The `setItem` directive's mouseover handler: assigns the hovered
repeat item's `$index` to `currentItemIndex` and restarts the interval
(`scope.startInterval()`), without touching the start time. -/
def setItemHover (i : Nat) (s : Scope) : Scope :=
  { s with currentItemIndex := i, rotationActive := true }

/-- `$scope.layoutInit`: starts the carousel exactly when
`$scope.itemsLimit > 1` (the `showLayout`/animation side effects carry
no scope state). -/
def layoutInit (now : Nat) (s : Scope) : Scope :=
  if s.itemsLimit > 1 then startCarousel now s else s

/-- The carousel operations observable on the scope: an interval tick
(`nextItem` at some current time), a hover on a rendered repeat item
(the `setItem` directive, whose `$index` ranges over the items rendered
under the `itemsLimit` cap), and `startCarousel`. -/
inductive CarouselOp where
  | tick (now : Nat)
  | hover (i : Nat)
  | start (now : Nat)
deriving Repr, DecidableEq

/-- One carousel operation applied to the scope. -/
def carouselStep (s : Scope) : CarouselOp → Scope
  | .tick now => nextItem now s
  | .hover i => setItemHover i s
  | .start now => startCarousel now s

/-- A whole session: controller initialization followed by a sequence of
carousel operations. -/
def runCarousel (ops : List CarouselOp) : Scope :=
  ops.foldl carouselStep initScope

theorem carouselStep_itemsLimit (s : Scope) (op : CarouselOp) :
    (carouselStep s op).itemsLimit = s.itemsLimit := by
  cases op with
  | tick now =>
      simp only [carouselStep, nextItem]
      split_ifs <;> rfl
  | hover i => rfl
  | start now => rfl

theorem carouselStep_index_lt (s : Scope) (op : CarouselOp)
    (hix : s.currentItemIndex < s.itemsLimit)
    (hop : ∀ i, op = CarouselOp.hover i → i < s.itemsLimit) :
    (carouselStep s op).currentItemIndex < (carouselStep s op).itemsLimit := by
  have hpos : 0 < s.itemsLimit := Nat.lt_of_le_of_lt (Nat.zero_le _) hix
  cases op with
  | tick now =>
      simp only [carouselStep, nextItem]
      split_ifs with hcap hadv
      · exact hpos
      · exact hadv
      · exact hpos
  | hover i => exact hop i rfl
  | start now => exact hix

theorem runCarousel_inv (ops : List CarouselOp) (s : Scope)
    (hix : s.currentItemIndex < s.itemsLimit)
    (hhover : ∀ i, CarouselOp.hover i ∈ ops → i < s.itemsLimit) :
    (ops.foldl carouselStep s).currentItemIndex <
      (ops.foldl carouselStep s).itemsLimit := by
  induction ops generalizing s with
  | nil => exact hix
  | cons op rest ih =>
      simp only [List.foldl_cons]
      apply ih
      · exact carouselStep_index_lt s op hix
          (fun i hi => hhover i (by simp [hi]))
      · intro i hi
        rw [carouselStep_itemsLimit]
        exact hhover i (List.mem_cons_of_mem _ hi)

theorem nextItem_wrap (s : Scope) (now : Nat)
    (hcap : now - s.autoCycleStartTime ≤ AUTO_ROTATE_MAX_DURATION)
    (hix : s.currentItemIndex < s.itemsLimit) :
    (nextItem now s).currentItemIndex =
      (s.currentItemIndex + 1) % s.itemsLimit := by
  simp only [nextItem]
  rw [if_neg (Nat.not_lt.mpr hcap)]
  split_ifs with hadv
  · exact (Nat.mod_eq_of_lt hadv).symm
  · have heq : s.currentItemIndex + 1 = s.itemsLimit := by omega
    show (0 : Nat) = (s.currentItemIndex + 1) % s.itemsLimit
    rw [heq, Nat.mod_self]

/-- C2: for every sequence of carousel operations (controller
initialization, `nextItem` ticks, hover-driven `setItem` assignments on
rendered items, and carousel starts) the current item index stays in
`[0, itemsLimit)`, and an under-cap `nextItem` maps an in-range index
`i` to `(i + 1) % itemsLimit`. -/
theorem carousel_index_in_range (ops : List CarouselOp)
    (hhover : ∀ i, CarouselOp.hover i ∈ ops → i < initScope.itemsLimit) :
    (runCarousel ops).currentItemIndex < (runCarousel ops).itemsLimit ∧
    ∀ (s : Scope) (now : Nat),
      now - s.autoCycleStartTime ≤ AUTO_ROTATE_MAX_DURATION →
      s.currentItemIndex < s.itemsLimit →
      (nextItem now s).currentItemIndex =
        (s.currentItemIndex + 1) % s.itemsLimit := by
  refine ⟨runCarousel_inv ops initScope (by decide) hhover, ?_⟩
  exact fun s now h1 h2 => nextItem_wrap s now h1 h2

/-- Witness for C2 at a concrete operation sequence. -/
theorem carousel_index_in_range_witness :
    (runCarousel [CarouselOp.start 0, CarouselOp.tick 3500,
        CarouselOp.tick 40000]).currentItemIndex <
      (runCarousel [CarouselOp.start 0, CarouselOp.tick 3500,
        CarouselOp.tick 40000]).itemsLimit ∧
    ∀ (s : Scope) (now : Nat),
      now - s.autoCycleStartTime ≤ AUTO_ROTATE_MAX_DURATION →
      s.currentItemIndex < s.itemsLimit →
      (nextItem now s).currentItemIndex =
        (s.currentItemIndex + 1) % s.itemsLimit :=
  carousel_index_in_range
    [CarouselOp.start 0, CarouselOp.tick 3500, CarouselOp.tick 40000]
    (by intro i hi; simp at hi)

/-- C3: once the elapsed time since the carousel start exceeds
`AUTO_ROTATE_MAX_DURATION`, the firing `nextItem` clears the repeating
interval and resets the index to 0 instead of advancing, and every
`nextItem` at the same or any later time also resets to 0 — no rotation
step advances the index after the cap is exceeded. -/
theorem rotation_stops_after_cap (s : Scope) (now : Nat)
    (hcap : AUTO_ROTATE_MAX_DURATION < now - s.autoCycleStartTime) :
    (nextItem now s).rotationActive = false ∧
    (nextItem now s).currentItemIndex = 0 ∧
    ∀ later : Nat, now ≤ later →
      (nextItem later s).rotationActive = false ∧
      (nextItem later s).currentItemIndex = 0 := by
  have key : ∀ t : Nat, AUTO_ROTATE_MAX_DURATION < t - s.autoCycleStartTime →
      (nextItem t s).rotationActive = false ∧
      (nextItem t s).currentItemIndex = 0 := by
    intro t ht
    simp only [nextItem]
    rw [if_pos ht]
    exact ⟨rfl, rfl⟩
  refine ⟨(key now hcap).1, (key now hcap).2, fun later hle => key later ?_⟩
  have hmono := Nat.sub_le_sub_right hle s.autoCycleStartTime
  omega

/-- A carousel scope that has been rotating since time 0. -/
def cappedScope : Scope :=
  { currentItemIndex := 0
    itemsLimit := 1
    autoCycleStartTime := 0
    rotationActive := true }

/-- Witness for C3 at a concrete over-cap tick. -/
theorem rotation_stops_after_cap_witness :
    (nextItem 30001 cappedScope).rotationActive = false ∧
    (nextItem 30001 cappedScope).currentItemIndex = 0 ∧
    ∀ later : Nat, 30001 ≤ later →
      (nextItem later cappedScope).rotationActive = false ∧
      (nextItem later cappedScope).currentItemIndex = 0 :=
  rotation_stops_after_cap cappedScope 30001 (by decide)

/-- C5: `layoutInit` starts the carousel exactly when `itemsLimit > 1`;
since the controller fixes `itemsLimit = 1`, `layoutInit` on the
initialized scope never starts the carousel. -/
theorem layoutInit_starts_iff_many_items (now : Nat) (s : Scope)
    (h : s.rotationActive = false) :
    ((layoutInit now s).rotationActive = true ↔ 1 < s.itemsLimit) ∧
    initScope.itemsLimit = 1 ∧
    (layoutInit now initScope).rotationActive = false := by
  refine ⟨⟨?_, ?_⟩, rfl, by simp [layoutInit, initScope]⟩
  · intro hrot
    by_contra hlim
    rw [layoutInit, if_neg hlim, h] at hrot
    exact Bool.false_ne_true hrot
  · intro hlim
    rw [layoutInit, if_pos hlim]
    rfl

/-- Witness for C5 on the freshly initialized scope. -/
theorem layoutInit_starts_iff_many_items_witness :
    ((layoutInit 0 initScope).rotationActive = true ↔
      1 < initScope.itemsLimit) ∧
    initScope.itemsLimit = 1 ∧
    (layoutInit 0 initScope).rotationActive = false :=
  layoutInit_starts_iff_many_items 0 initScope rfl

/-! ### Uniform font size (`uniformSize`)

One record per `span` found under the group selector: whether the span
is visible (`offsetParent` non-null), the parent element's
`minfontsize` attribute (`getAttribute` returns `null` for an absent
attribute and the raw string otherwise), and the span's rendered font
size (`parseInt` of the computed `font-size`, a number).

The scan's variables hold JS values that are numbers or raw attribute
strings, because the clamp assigns the attribute string unconverted.
JS `<` on such values: when both operands are strings the comparison
is lexicographic by code unit; otherwise both are converted to
numbers.  `ToNumber` of a digit string is its value and of the empty
string 0; a string containing a non-digit yields `NaN`, and every
comparison against `NaN` is false, as is `size < ToNumber(null)` for a
nonnegative size, so absent and non-numeric attributes never clamp. -/

structure SpanElement where
  offsetParent : Bool
  minfontsize : Option String
  fontSize : Nat
deriving Repr, DecidableEq

/-- A value held by `elementFontSize` or `smallestFontSize` during the
scan: a number, or a raw `minfontsize` attribute string assigned by
the clamp. -/
inductive JsVal where
  | num (n : Nat)
  | str (s : String)
deriving Repr, DecidableEq

/-- `ToNumber` of an attribute string, restricted to the nonnegative
decimal-integer strings this layout's attributes carry: the value for
a digit string (leading zeros allowed), 0 for the empty string, and
`none` (for `NaN`) when a non-digit occurs. -/
def strToNumber? (s : String) : Option Nat :=
  s.data.foldl
    (fun acc c =>
      match acc with
      | none => none
      | some a => if c.isDigit then some (10 * a + (c.toNat - 48)) else none)
    (some 0)

/-- JS string `<` by code unit (code-point order, which agrees with
UTF-16 order for the attribute strings at hand). -/
def lexLtChars : List Char → List Char → Bool
  | _, [] => false
  | [], _ :: _ => true
  | a :: as, b :: bs =>
      if a.toNat < b.toNat then true
      else if b.toNat < a.toNat then false
      else lexLtChars as bs

/-- JS `<` on the scan's values: string-vs-string is lexicographic,
every other combination compares numbers, and a comparison against a
non-numeric string (`NaN`) is false. -/
def jsLt : JsVal → JsVal → Bool
  | .num a, .num b => decide (a < b)
  | .num a, .str b =>
      match strToNumber? b with
      | some bv => decide (a < bv)
      | none => false
  | .str a, .num b =>
      match strToNumber? a with
      | some av => decide (av < b)
      | none => false
  | .str a, .str b => lexLtChars a.data b.data

/-- The clamp in `uniformSize`'s scan:
`if (elementFontSize < elementMinimumFontSize) elementFontSize =
elementMinimumFontSize;` — the comparison coerces the attribute string
to a number, and a firing clamp stores the raw attribute string. -/
def clampedFontSize (e : SpanElement) : JsVal :=
  match e.minfontsize with
  | none => .num e.fontSize
  | some m =>
      match strToNumber? m with
      | some mv => if e.fontSize < mv then .str m else .num e.fontSize
      | none => .num e.fontSize

/-- One step of the `forEach` scan: invisible spans are skipped, and a
visible span replaces the accumulator by its clamped size when the JS
comparison `elementFontSize < smallestFontSize` holds. -/
def uniformStep (acc : JsVal) (e : SpanElement) : JsVal :=
  if e.offsetParent then
    if jsLt (clampedFontSize e) acc then clampedFontSize e else acc
  else acc

/-- The scan of `uniformSize`, starting from the literal seed
`var smallestFontSize = 1000;`. -/
def smallestFontSize (elems : List SpanElement) : JsVal :=
  elems.foldl uniformStep (.num 1000)

/-- The apply pass of `uniformSize`: every element of the group (and
its span) gets its `font-size` set to `smallestFontSize + 'px'`. -/
def uniformSize (elems : List SpanElement) : List JsVal :=
  elems.map (fun _ => smallestFontSize elems)

/-- The scan step specialized to numeric accumulators and clamp-free
visible spans, where every comparison is numeric. -/
def numericStep (a : Nat) (e : SpanElement) : Nat :=
  if e.offsetParent then
    if e.fontSize < a then e.fontSize else a
  else a

theorem foldl_uniformStep_mem (elems : List SpanElement) (acc : JsVal) :
    elems.foldl uniformStep acc = acc ∨
      ∃ e ∈ elems, e.offsetParent = true ∧
        elems.foldl uniformStep acc = clampedFontSize e := by
  induction elems generalizing acc with
  | nil => exact Or.inl rfl
  | cons e rest ih =>
      simp only [List.foldl_cons]
      have hstep : uniformStep acc e = acc ∨
          (e.offsetParent = true ∧ uniformStep acc e = clampedFontSize e) := by
        unfold uniformStep
        split_ifs with hv hlt
        · exact Or.inr ⟨hv, rfl⟩
        · exact Or.inl rfl
        · exact Or.inl rfl
      rcases ih (uniformStep acc e) with heq | ⟨x, hx, hvx, heq⟩
      · rcases hstep with h | ⟨hv, h⟩
        · exact Or.inl (by rw [heq, h])
        · exact Or.inr ⟨e, List.mem_cons_self e rest, hv, by rw [heq, h]⟩
      · exact Or.inr ⟨x, List.mem_cons_of_mem e hx, hvx, heq⟩

theorem foldl_uniformStep_numeric (elems : List SpanElement) (a : Nat)
    (hnum : ∀ e ∈ elems, e.offsetParent = true →
      clampedFontSize e = JsVal.num e.fontSize) :
    elems.foldl uniformStep (JsVal.num a) =
      JsVal.num (elems.foldl numericStep a) := by
  induction elems generalizing a with
  | nil => rfl
  | cons e rest ih =>
      simp only [List.foldl_cons]
      have hstep : uniformStep (JsVal.num a) e = JsVal.num (numericStep a e) := by
        by_cases hv : e.offsetParent = true
        · have hc := hnum e (List.mem_cons_self e rest) hv
          by_cases hlt : e.fontSize < a
          · simp [uniformStep, numericStep, hv, hc, jsLt, hlt]
          · simp [uniformStep, numericStep, hv, hc, jsLt, hlt]
        · have hv' : e.offsetParent = false := by
            cases hveq : e.offsetParent
            · rfl
            · exact absurd hveq hv
          simp [uniformStep, numericStep, hv']
      rw [hstep]
      exact ih (numericStep a e)
        (fun x hx hvx => hnum x (List.mem_cons_of_mem e hx) hvx)

theorem foldl_numericStep_spec (elems : List SpanElement) (a : Nat) :
    elems.foldl numericStep a ≤ a ∧
    (∀ e ∈ elems, e.offsetParent = true →
      elems.foldl numericStep a ≤ e.fontSize) ∧
    (elems.foldl numericStep a = a ∨
      ∃ e ∈ elems, e.offsetParent = true ∧
        elems.foldl numericStep a = e.fontSize) := by
  induction elems generalizing a with
  | nil => exact ⟨Nat.le_refl a, by simp, Or.inl rfl⟩
  | cons e rest ih =>
      simp only [List.foldl_cons]
      have hstep_le : numericStep a e ≤ a := by
        unfold numericStep; split_ifs <;> omega
      have hstep_e : e.offsetParent = true →
          numericStep a e ≤ e.fontSize := by
        intro hv
        unfold numericStep
        rw [if_pos hv]
        split_ifs <;> omega
      have hstep_cases : numericStep a e = a ∨
          (e.offsetParent = true ∧ numericStep a e = e.fontSize) := by
        unfold numericStep
        split_ifs with hv hlt
        · exact Or.inr ⟨hv, rfl⟩
        · exact Or.inl rfl
        · exact Or.inl rfl
      obtain ⟨ih1, ih2, ih3⟩ := ih (numericStep a e)
      refine ⟨Nat.le_trans ih1 hstep_le, ?_, ?_⟩
      · intro x hx hvx
        rcases List.mem_cons.mp hx with rfl | hx'
        · exact Nat.le_trans ih1 (hstep_e hvx)
        · exact ih2 x hx' hvx
      · rcases ih3 with heq | ⟨x, hx, hvx, heq⟩
        · rcases hstep_cases with h | ⟨hv, h⟩
          · exact Or.inl (by rw [heq, h])
          · exact Or.inr ⟨e, List.mem_cons_self e rest, hv, by rw [heq, h]⟩
        · exact Or.inr ⟨x, List.mem_cons_of_mem e hx, hvx, heq⟩

/-- C1 (amended): `uniformSize` assigns every element of the group the
scan's single result, and that result is either the seed 1000 or the
clamped size of one of the visible spans; when no visible span's clamp
fires, every comparison in the scan is numeric and the common size is
the minimum of the seed 1000 and the visible rendered font sizes. -/
theorem uniformSize_uniform_and_min (elems : List SpanElement)
    (hnum : ∀ e ∈ elems, e.offsetParent = true →
      clampedFontSize e = JsVal.num e.fontSize) :
    (∀ v ∈ uniformSize elems, v = smallestFontSize elems) ∧
    (smallestFontSize elems = JsVal.num 1000 ∨
      ∃ e ∈ elems, e.offsetParent = true ∧
        smallestFontSize elems = clampedFontSize e) ∧
    ∃ n : Nat, smallestFontSize elems = JsVal.num n ∧
      n ≤ 1000 ∧
      (∀ e ∈ elems, e.offsetParent = true → n ≤ e.fontSize) ∧
      (n = 1000 ∨ ∃ e ∈ elems, e.offsetParent = true ∧ n = e.fontSize) := by
  refine ⟨?_, foldl_uniformStep_mem elems (JsVal.num 1000), ?_⟩
  · intro v hv
    rcases List.mem_map.mp hv with ⟨e, he, rfl⟩
    rfl
  · refine ⟨elems.foldl numericStep 1000,
      foldl_uniformStep_numeric elems 1000 hnum, ?_⟩
    obtain ⟨h1, h2, h3⟩ := foldl_numericStep_spec elems 1000
    exact ⟨h1, h2, h3⟩

/-- A visible span whose rendered size meets its configured minimum,
so its clamp does not fire. -/
def numericSpan : SpanElement :=
  { offsetParent := true, minfontsize := some "8", fontSize := 12 }

/-- Witness for C1's amended theorem on a clamp-free group. -/
theorem uniformSize_uniform_and_min_witness :
    (∀ v ∈ uniformSize [numericSpan], v = smallestFontSize [numericSpan]) ∧
    (smallestFontSize [numericSpan] = JsVal.num 1000 ∨
      ∃ e ∈ [numericSpan], e.offsetParent = true ∧
        smallestFontSize [numericSpan] = clampedFontSize e) ∧
    ∃ n : Nat, smallestFontSize [numericSpan] = JsVal.num n ∧
      n ≤ 1000 ∧
      (∀ e ∈ [numericSpan], e.offsetParent = true → n ≤ e.fontSize) ∧
      (n = 1000 ∨ ∃ e ∈ [numericSpan], e.offsetParent = true ∧
        n = e.fontSize) :=
  uniformSize_uniform_and_min [numericSpan]
    (by intro e he hv; rcases List.mem_singleton.mp he with rfl; rfl)

/-- A visible span whose configured minimum lies above the scan seed. -/
def oversizeSpan : SpanElement :=
  { offsetParent := true, minfontsize := some "1500", fontSize := 12 }

/-- A visible span clamping to the attribute string `"10"`. -/
def lexSpanTen : SpanElement :=
  { offsetParent := true, minfontsize := some "10", fontSize := 5 }

/-- A visible span clamping to the attribute string `"9"`. -/
def lexSpanNine : SpanElement :=
  { offsetParent := true, minfontsize := some "9", fontSize := 5 }

/-- C1 counterexample: the assigned size is not the minimum over the
visible elements of the rendered size clamped to the configured
minimum.  First, the scan's hard-coded seed caps the result: a group
whose only visible span clamps to 1500 is assigned 1000.  Second, a
firing clamp stores the raw attribute string, and JS compares two
strings lexicographically: with minima `"10"` and `"9"` (rendered size
5 each) the scan keeps `"10"` because the string `"9"` is not
lexicographically below `"10"`, so the group is assigned 10px although
the minimum of the clamped sizes is 9. -/
theorem uniformSize_not_min_of_clamped :
    clampedFontSize oversizeSpan = JsVal.str "1500" ∧
    smallestFontSize [oversizeSpan] = JsVal.num 1000 ∧
    clampedFontSize lexSpanTen = JsVal.str "10" ∧
    clampedFontSize lexSpanNine = JsVal.str "9" ∧
    jsLt (JsVal.str "9") (JsVal.str "10") = false ∧
    smallestFontSize [lexSpanTen, lexSpanNine] = JsVal.str "10" ∧
    uniformSize [lexSpanTen, lexSpanNine] =
      [JsVal.str "10", JsVal.str "10"] ∧
    (9 : Nat) < 10 :=
  ⟨rfl, rfl, rfl, rfl, rfl, rfl, rfl, by decide⟩

/-! ### Interval timer discipline (`startInterval`)

`autoCycleInterval` is the module-level variable holding the handle of
the last `setInterval` registration; `active` is the list of interval
handles currently registered with the browser and not yet cleared.
Browser interval handles are positive, so `if (autoCycleInterval)` is
truthy exactly when a handle has been stored. -/

structure TimerState where
  active : List Nat
  nextId : Nat
  autoCycleInterval : Option Nat
deriving Repr, DecidableEq

/-- Before any registration: no interval registered, no handle stored;
handles are issued from 1. -/
def initTimer : TimerState :=
  { active := [], nextId := 1, autoCycleInterval := none }

/-- `clearInterval` on a stored handle; with no stored handle
(`autoCycleInterval` undefined) clearing is a no-op. -/
def clearIntervalOp : Option Nat → TimerState → TimerState
  | some id, st => { st with active := st.active.erase id }
  | none, st => st

/-- `$scope.startInterval`: `if (autoCycleInterval)
clearInterval(autoCycleInterval); autoCycleInterval =
window.setInterval($scope.nextItem, ITEM_HOLD_DUR);`. -/
def startInterval (st : TimerState) : TimerState :=
  let st1 := clearIntervalOp st.autoCycleInterval st
  { st1 with
    active := st1.active.concat st1.nextId
    nextId := st1.nextId + 1
    autoCycleInterval := some st1.nextId }

/-- The timer effect of an over-cap `nextItem` tick:
`clearInterval(autoCycleInterval)` (the variable itself is kept). -/
def nextItemClearTimer (st : TimerState) : TimerState :=
  clearIntervalOp st.autoCycleInterval st

/-- Timer-affecting operations: a `startInterval` call (from
`startCarousel` or a `setItem` hover) and an over-cap tick. -/
inductive TimerOp where
  | start
  | capTick
deriving Repr, DecidableEq

/-- One timer operation applied to the timer state. -/
def timerStep (st : TimerState) : TimerOp → TimerState
  | .start => startInterval st
  | .capTick => nextItemClearTimer st

/-- A whole session of timer operations from the initial state. -/
def runTimer (ops : List TimerOp) : TimerState :=
  ops.foldl timerStep initTimer

/-- The registered intervals are at most the one whose handle is stored
in `autoCycleInterval`. -/
def timerInv (st : TimerState) : Prop :=
  st.active = [] ∨
    ∃ id, st.autoCycleInterval = some id ∧ st.active = [id]

theorem clearIntervalOp_active_nil (st : TimerState) (h : timerInv st) :
    (clearIntervalOp st.autoCycleInterval st).active = [] := by
  rcases h with h | ⟨id, hid, hact⟩
  · cases hc : st.autoCycleInterval with
    | none => simpa [clearIntervalOp] using h
    | some id => simp [clearIntervalOp, h]
  · rw [hid]
    simp [clearIntervalOp, hact, List.erase_cons_head]

theorem clearIntervalOp_nextId (h : Option Nat) (st : TimerState) :
    (clearIntervalOp h st).nextId = st.nextId := by
  cases h <;> rfl

theorem timerStep_inv (st : TimerState) (op : TimerOp) (h : timerInv st) :
    timerInv (timerStep st op) := by
  cases op with
  | start =>
      right
      refine ⟨(clearIntervalOp st.autoCycleInterval st).nextId, rfl, ?_⟩
      show ((clearIntervalOp st.autoCycleInterval st).active.concat _) = _
      rw [clearIntervalOp_active_nil st h]
      rfl
  | capTick =>
      left
      exact clearIntervalOp_active_nil st h

theorem runTimer_inv (ops : List TimerOp) (st : TimerState)
    (h : timerInv st) : timerInv (ops.foldl timerStep st) := by
  induction ops generalizing st with
  | nil => exact h
  | cons op rest ih =>
      simp only [List.foldl_cons]
      exact ih (timerStep st op) (timerStep_inv st op h)

/-- C10: at most one auto-cycle interval timer is ever active —
`startInterval` clears any previously registered interval before
registering a new one, so no sequence of carousel starts, hover-driven
restarts and over-cap clears ever leaves more than one registered
interval. -/
theorem startInterval_single_active (ops : List TimerOp) :
    (runTimer ops).active.length ≤ 1 := by
  have h := runTimer_inv ops initTimer (Or.inl rfl)
  rcases h with h | ⟨id, _, hact⟩
  · rw [runTimer, h]
    decide
  · rw [runTimer, hact]
    simp

/-! ### Font loader (`loadFonts`)

`loadFonts` hides `#ad-container`, then either calls `WebFont.load`
(non-IE) or schedules an immediate fallback (IE).  The `WebFont.load`
configuration registers only the `active` callback (plus a `timeout`
value); no `inactive` or `fontinactive` callback is supplied, so when
the web-font request times out or fails, none of this file's code runs
on that path. -/

inductive FontLoadPath where
  /-- `WebFont.load` succeeds and fires the configured `active`
  callback. -/
  | webfontActive
  /-- The web-font request times out (or fails): `WebFont` would fire
  `inactive`, but the configuration registers no such callback. -/
  | webfontTimedOut
  /-- `helpers.isIE()` is true: the `else` branch schedules the
  fallback directly. -/
  | ie
deriving Repr, DecidableEq

/-- Observable effects of a `loadFonts` path: whether `fontsLoaded` is
broadcast on the scope and whether `#ad-container` ends visible. -/
structure FontLoadEffect where
  fontsLoadedBroadcast : Bool
  adContainerVisible : Bool
deriving Repr, DecidableEq

/-- The effect of each `loadFonts` execution path: the `active`
callback and the IE fallback both broadcast `fontsLoaded` and restore
visibility; the timeout path runs no registered callback, so the
container stays hidden and nothing is broadcast. -/
def loadFonts : FontLoadPath → FontLoadEffect
  | .webfontActive =>
      { fontsLoadedBroadcast := true, adContainerVisible := true }
  | .webfontTimedOut =>
      { fontsLoadedBroadcast := false, adContainerVisible := false }
  | .ie =>
      { fontsLoadedBroadcast := true, adContainerVisible := true }

/-- C4 counterexample: on the web-font timeout path the `fontsLoaded`
signal is never broadcast and the ad container stays hidden, so it is
not the case that every execution path of the font loader proceeds. -/
theorem loadFonts_timeout_no_broadcast :
    (loadFonts FontLoadPath.webfontTimedOut).fontsLoadedBroadcast = false ∧
    (loadFonts FontLoadPath.webfontTimedOut).adContainerVisible = false :=
  ⟨rfl, rfl⟩

/-- C4 (amended): the `fontsLoaded` completion signal is broadcast, and
the ad container made visible, exactly on the successful web-font path
and the unsupported-browser (IE) path; on the timeout path no callback
is registered, so neither happens. -/
theorem loadFonts_broadcast_paths (p : FontLoadPath) :
    ((loadFonts p).fontsLoadedBroadcast = true ↔
      p ≠ FontLoadPath.webfontTimedOut) ∧
    (loadFonts p).adContainerVisible = (loadFonts p).fontsLoadedBroadcast := by
  cases p <;> simp [loadFonts]

/-! ### Animation builder (`buildAnimation`)

Each timeline entry records the `TimelineLite` call made: the method,
the target selector, the tween duration in milliseconds, the tween
variables, the stagger delay in milliseconds (0 for plain `from`), and
the position parameter (empty when omitted). -/

structure Tween where
  method : String
  selector : String
  durMs : Nat
  vars : String
  staggerMs : Nat
  position : String
deriving Repr, DecidableEq

/-- The `case LayoutTypes.SQUARE` timeline. -/
def squareTimeline : List Tween :=
  [ { method := "from", selector := "#items-segment", durMs := 750,
      vars := "width: 0, marginLeft: 100%, ease: Power3.easeInOut, delay: .5",
      staggerMs := 0, position := "" },
    { method := "staggerFrom", selector := ".item-panel", durMs := 500,
      vars := "rotationY: 90, transformOrigin: 0% 50%",
      staggerMs := 400, position := "" },
    { method := "staggerTo", selector := ".img-holder img", durMs := 1350,
      vars := "opacity: 1", staggerMs := 250, position := "-=1.05" } ]

/-- The `case LayoutTypes.VERTICAL` timeline. -/
def verticalTimeline : List Tween :=
  [ { method := "from", selector := "#items-segment", durMs := 1000,
      vars := "height: 0, y: -=30, ease: Power3.easeInOut, delay: .5",
      staggerMs := 0, position := "" },
    { method := "from", selector := ".logo, .disclaimer-panel", durMs := 500,
      vars := "alpha: 0", staggerMs := 0, position := "-=.05" },
    { method := "staggerFrom", selector := ".item-panel", durMs := 500,
      vars := "rotationX: -90, transformOrigin: 50% 0%",
      staggerMs := 400, position := "-=.4" },
    { method := "staggerTo", selector := ".img-holder img", durMs := 1350,
      vars := "opacity: 1", staggerMs := 250, position := "-=1.05" } ]

/-- The fall-through `case LayoutTypes.HORIZONTAL: case LayoutTypes.MIN`
timeline. -/
def horizontalMinTimeline : List Tween :=
  [ { method := "from", selector := "#items-segment", durMs := 750,
      vars := "width: 0, marginLeft: 100%, ease: Power3.easeInOut, delay: .5",
      staggerMs := 0, position := "" },
    { method := "from", selector := ".logo, .disclaimer-panel", durMs := 500,
      vars := "alpha: 0", staggerMs := 0, position := "-=.05" },
    { method := "staggerFrom", selector := ".item-panel", durMs := 500,
      vars := "rotationY: 90, transformOrigin: 0% 50%",
      staggerMs := 400, position := "-=.4" },
    { method := "staggerTo", selector := ".img-holder img", durMs := 1350,
      vars := "opacity: 1", staggerMs := 250, position := "-=1.05" } ]

/-- The star stagger appended after the `switch` for every layout type. -/
def starTween : Tween :=
  { method := "staggerFrom", selector := ".star", durMs := 250,
    vars := "alpha: 0", staggerMs := 75, position := "-=1.5" }

/-- The layout-type enum the `switch` in `buildAnimation` is keyed by. -/
inductive LayoutTypes where
  | SQUARE
  | VERTICAL
  | HORIZONTAL
  | MIN
deriving Repr, DecidableEq

/-- The timeline built by `buildAnimation` for each layout type:
the `switch` selects a prebuilt sequence (`HORIZONTAL` falls through to
`MIN`'s case) and the star stagger is appended unconditionally. -/
def buildAnimation : LayoutTypes → List Tween
  | .SQUARE => squareTimeline ++ [starTween]
  | .VERTICAL => verticalTimeline ++ [starTween]
  | .HORIZONTAL => horizontalMinTimeline ++ [starTween]
  | .MIN => horizontalMinTimeline ++ [starTween]

/-- C6 counterexample: `HORIZONTAL` and `MIN` are distinct enum values
but are mapped by `buildAnimation` to the same timeline sequence, so
not every one of the four enum values has its own prebuilt sequence. -/
theorem buildAnimation_horizontal_min_shared :
    buildAnimation LayoutTypes.HORIZONTAL = buildAnimation LayoutTypes.MIN ∧
    LayoutTypes.HORIZONTAL ≠ LayoutTypes.MIN :=
  ⟨rfl, by decide⟩

/-- C6 (amended): the animation builder is a static lookup keyed by the
layout-type enum into three fixed, hand-authored timeline sequences:
`SQUARE` and `VERTICAL` each select their own sequence, while
`HORIZONTAL` and `MIN` share one. -/
theorem buildAnimation_three_timelines :
    (∀ t, buildAnimation t = squareTimeline ++ [starTween] ∨
      buildAnimation t = verticalTimeline ++ [starTween] ∨
      buildAnimation t = horizontalMinTimeline ++ [starTween]) ∧
    buildAnimation LayoutTypes.SQUARE ≠ buildAnimation LayoutTypes.VERTICAL ∧
    buildAnimation LayoutTypes.SQUARE ≠
      buildAnimation LayoutTypes.HORIZONTAL ∧
    buildAnimation LayoutTypes.VERTICAL ≠
      buildAnimation LayoutTypes.HORIZONTAL ∧
    buildAnimation LayoutTypes.HORIZONTAL = buildAnimation LayoutTypes.MIN := by
  refine ⟨fun t => by cases t <;> simp [buildAnimation], ?_, ?_, ?_, rfl⟩
  · intro h
    have hlen := congrArg List.length h
    simp [buildAnimation, squareTimeline, verticalTimeline, starTween]
      at hlen
  · intro h
    have hlen := congrArg List.length h
    simp [buildAnimation, squareTimeline, horizontalMinTimeline, starTween]
      at hlen
  · intro h
    have hdur := congrArg (List.map Tween.durMs) h
    simp [buildAnimation, verticalTimeline, horizontalMinTimeline, starTween]
      at hdur

/-! ### Schema occurrence constraints (`utils.defineOccurrences`) -/

/-- One `utils.defineOccurrences(entity, min, max)` declaration. -/
structure Occurrence where
  entity : String
  minOccurs : Nat
  maxOccurs : Nat
deriving Repr, DecidableEq

/-- The occurrence declarations of the layout spec block. -/
def layoutOccurrences : List Occurrence :=
  [ { entity := "Headline", minOccurs := 1, maxOccurs := 1 },
    { entity := "Design", minOccurs := 1, maxOccurs := 1 },
    { entity := "Product", minOccurs := 3, maxOccurs := 3 } ]

/-- A payload, given by how many records of each entity kind it
carries, satisfies the declared occurrence constraints when every
declared kind's count lies between its declared minimum and maximum. -/
def satisfiesOccurrences (counts : String → Nat) : Prop :=
  ∀ o ∈ layoutOccurrences,
    o.minOccurs ≤ counts o.entity ∧ counts o.entity ≤ o.maxOccurs

/-- C7: the declared constraints pin the payload exactly — a payload
satisfies them precisely when it has exactly 1 Headline, exactly 1
Design and exactly 3 Products, so any payload with fewer or more of any
kind is invalid. -/
theorem defineOccurrences_exact_counts (counts : String → Nat) :
    satisfiesOccurrences counts ↔
      counts "Headline" = 1 ∧ counts "Design" = 1 ∧ counts "Product" = 3 := by
  constructor
  · intro h
    have h1 := h { entity := "Headline", minOccurs := 1, maxOccurs := 1 }
      (by simp [layoutOccurrences])
    have h2 := h { entity := "Design", minOccurs := 1, maxOccurs := 1 }
      (by simp [layoutOccurrences])
    have h3 := h { entity := "Product", minOccurs := 3, maxOccurs := 3 }
      (by simp [layoutOccurrences])
    exact ⟨Nat.le_antisymm h1.2 h1.1, Nat.le_antisymm h2.2 h2.1,
      Nat.le_antisymm h3.2 h3.1⟩
  · rintro ⟨h1, h2, h3⟩ o ho
    simp only [layoutOccurrences, List.mem_cons, List.not_mem_nil,
      or_false] at ho
    rcases ho with rfl | rfl | rfl <;> simp [h1, h2, h3]

/-! ### Payload records and the preloader bootstrap -/

/-- A parsed Product record: `name` and `url` are required attributes,
the rest optional; `imageUrl` is the product image read by the
preloader bootstrap.  Optional string fields model absent attributes as
`none`; JS treats the empty string as falsy, which matters for the
`salePrice || price` substitution. -/
structure Product where
  name : String
  url : String
  subTitle : Option String
  rating : Option String
  price : Option String
  salePrice : Option String
  imageUrl : String
deriving Repr, DecidableEq

/-- A parsed Design record, restricted to the fields the preloader
bootstrap reads. -/
structure Design where
  logoImageUrl : String
  bgImageUrl : String
deriving Repr, DecidableEq

/-- The image URLs `initPreloading` registers with `utils.preloader`:
each parsed Product's `imageUrl` in order, then the Design's
`logoImageUrl` and `bgImageUrl`. -/
def initPreloadingImages (design : Design) (prods : List Product) :
    List String :=
  prods.map Product.imageUrl ++ [design.logoImageUrl, design.bgImageUrl]

/-- Observable events of the `window.onAdData` bootstrap. -/
inductive AdEvent where
  /-- `preloader.addImage(url)`. -/
  | addImage (url : String)
  /-- `preloader.start()`. -/
  | startPreloading
  /-- The preloader reports completion to its registered listener. -/
  | preloadingComplete
  /-- `utils.onAdData(data, util)` — the controller's data handling. -/
  | handleAdData
deriving Repr, DecidableEq

/-- The event trace of `window.onAdData`: `initPreloading` registers
the images, `start()` begins loading, and the completion listener
registered with `addCompletionListener` runs `utils.onAdData` once the
preloader reports completion. -/
def onAdDataTrace (design : Design) (prods : List Product) : List AdEvent :=
  (initPreloadingImages design prods).map AdEvent.addImage ++
    [AdEvent.startPreloading, AdEvent.preloadingComplete,
      AdEvent.handleAdData]

/-- The URLs registered with the preloader along a trace. -/
def registeredImages (tr : List AdEvent) : List String :=
  tr.filterMap fun e =>
    match e with
    | .addImage u => some u
    | _ => none

theorem registeredImages_addImages (L : List String) :
    registeredImages (L.map AdEvent.addImage ++
      [AdEvent.startPreloading, AdEvent.preloadingComplete,
        AdEvent.handleAdData]) = L := by
  induction L with
  | nil => rfl
  | cons u L ih =>
      simpa [registeredImages, List.filterMap_cons] using ih

/-- C8: the bootstrap registers with the preloading utility exactly the
image URL of each parsed Product plus the Design's logo and background
image URLs, and the controller's data handling appears in the trace
only after the preloader reports completion. -/
theorem initPreloading_registers_and_orders (design : Design)
    (prods : List Product) :
    registeredImages (onAdDataTrace design prods) =
      prods.map Product.imageUrl ++
        [design.logoImageUrl, design.bgImageUrl] ∧
    ∃ pre post,
      onAdDataTrace design prods =
        pre ++ AdEvent.preloadingComplete :: post ∧
      AdEvent.handleAdData ∉ pre ∧ post = [AdEvent.handleAdData] := by
  constructor
  · exact registeredImages_addImages (initPreloadingImages design prods)
  · refine ⟨(initPreloadingImages design prods).map AdEvent.addImage ++
      [AdEvent.startPreloading], [AdEvent.handleAdData], ?_, ?_, rfl⟩
    · simp [onAdDataTrace]
    · simp [List.mem_append, List.mem_map]

/-! ### Sale price substitution in `LayoutController` -/

/-- JS truthiness of an optional string attribute: absent (`undefined`)
and the empty string are falsy. -/
def truthy : Option String → Bool
  | none => false
  | some s => !(s == "")

/-- The controller's per-product pass:
`product.price = product.salePrice || product.price;`. -/
def applySalePrice (p : Product) : Product :=
  { p with price := if truthy p.salePrice then p.salePrice else p.price }

/-- The `angular.forEach($scope.products, ...)` loop on controller
initialization. -/
def controllerInitProducts (prods : List Product) : List Product :=
  prods.map applySalePrice

/-- C9: on controller initialization every product's displayed price is
overwritten with the sale price when a (truthy) sale price is present,
and kept as the regular price otherwise. -/
theorem controller_sale_price (prods : List Product) (i : Nat)
    (p : Product) (hp : prods[i]? = some p) :
    (controllerInitProducts prods)[i]? = some (applySalePrice p) ∧
    (truthy p.salePrice = true →
      (applySalePrice p).price = p.salePrice) ∧
    (truthy p.salePrice = false → (applySalePrice p).price = p.price) ∧
    (p.salePrice = none → (applySalePrice p).price = p.price) ∧
    truthy none = false ∧ truthy (some "") = false ∧
    ∀ s : String, s ≠ "" → truthy (some s) = true := by
  refine ⟨?_, ?_, ?_, ?_, rfl, rfl, ?_⟩
  · rw [controllerInitProducts, List.getElem?_map, hp]
    rfl
  · intro ht
    rw [applySalePrice]
    simp [ht]
  · intro ht
    rw [applySalePrice]
    simp [ht]
  · intro hn
    rw [applySalePrice, hn]
    rfl
  · intro s hs
    simpa [truthy] using hs

/-- A concrete product carrying both a regular and a sale price. -/
def saleProduct : Product :=
  { name := "gadget", url := "https://example.com/gadget",
    subTitle := none, rating := none,
    price := some "9.99", salePrice := some "5.99",
    imageUrl := "https://example.com/gadget.png" }

/-- Witness for C9 on a one-product payload. -/
theorem controller_sale_price_witness :
    (controllerInitProducts [saleProduct])[0]? =
      some (applySalePrice saleProduct) ∧
    (truthy saleProduct.salePrice = true →
      (applySalePrice saleProduct).price = saleProduct.salePrice) ∧
    (truthy saleProduct.salePrice = false →
      (applySalePrice saleProduct).price = saleProduct.price) ∧
    (saleProduct.salePrice = none →
      (applySalePrice saleProduct).price = saleProduct.price) ∧
    truthy none = false ∧ truthy (some "") = false ∧
    ∀ s : String, s ≠ "" → truthy (some s) = true :=
  controller_sale_price [saleProduct] 0 saleProduct rfl

end Arcadian
